import Mathlib

/-!
Verification of the Data Grid Engine (DynamicTable.tsx) and Form Engine
(DynamicEditModal.tsx) of the Next-Template repository.

The TypeScript components are shallowly embedded: JavaScript values are
modelled by the inductive `JSValue` (numbers as integers, arrays restricted
to arrays of primitives), rows by `Row`, and each relevant handler or memo
by a pure Lean function translated from the source.  Stateful React code
becomes explicit state passing over `GridState`; callback invocations become
an explicit event list.
-/

/-- Primitive JavaScript values: null, undefined, strings, numbers
(modelled as integers) and booleans. -/
inductive JSPrim where
  | pNull
  | pUndefined
  | pStr (s : String)
  | pNum (n : Int)
  | pBool (b : Bool)
deriving DecidableEq, Repr

/-- JavaScript values as stored in row fields and form records: a primitive
or an array of primitives (the source only ever maps/joins array elements,
so nested arrays are not modelled). -/
inductive JSValue where
  | vNull
  | vUndefined
  | vStr (s : String)
  | vNum (n : Int)
  | vBool (b : Bool)
  | vArr (elems : List JSPrim)
deriving DecidableEq, Repr

/-- Embed a primitive into `JSValue`. -/
def JSPrim.toVal : JSPrim → JSValue
  | .pNull => .vNull
  | .pUndefined => .vUndefined
  | .pStr s => .vStr s
  | .pNum n => .vNum n
  | .pBool b => .vBool b

/-- JavaScript falsiness: null, undefined, the empty string, 0 and false
are falsy; everything else (including every array) is truthy. -/
def jsFalsy : JSValue → Bool
  | .vNull => true
  | .vUndefined => true
  | .vStr s => s == ""
  | .vNum n => n == 0
  | .vBool b => !b
  | .vArr _ => false

/-- JavaScript strict equality `===` on the modelled values.  Arrays are
compared by reference in JavaScript; two distinct array expressions are
never identical, so the model returns false for arrays. -/
def jsStrictEq : JSValue → JSValue → Bool
  | .vNull, .vNull => true
  | .vUndefined, .vUndefined => true
  | .vStr a, .vStr b => a == b
  | .vNum a, .vNum b => a == b
  | .vBool a, .vBool b => a == b
  | _, _ => false

/-- Is the value null or undefined (the `=== null || === undefined` test). -/
def isNullish : JSValue → Bool
  | .vNull => true
  | .vUndefined => true
  | _ => false

/-- String form of a primitive, as produced by JavaScript `String(p)`. -/
def JSPrim.toStr : JSPrim → String
  | .pNull => "null"
  | .pUndefined => "undefined"
  | .pStr s => s
  | .pNum n => toString n
  | .pBool b => if b then "true" else "false"

/-- JavaScript `value.toString()` / `String(value)`.  Arrays stringify by
joining their elements with a comma, rendering null/undefined elements as
the empty string. -/
def jsToString : JSValue → String
  | .vNull => "null"
  | .vUndefined => "undefined"
  | .vStr s => s
  | .vNum n => toString n
  | .vBool b => if b then "true" else "false"
  | .vArr l =>
      String.intercalate "," (l.map fun p =>
        match p with
        | .pNull => ""
        | .pUndefined => ""
        | p => p.toStr)

/-- One grid row (`GenericDataItem`): a string `id` plus an open mapping
from field names to values. -/
structure Row where
  id : String
  fields : List (String × JSValue)
deriving DecidableEq, Repr

/-- Property access `item[key]` on a row: the `id` field, a stored field,
or `undefined` when absent. -/
def rowGet (item : Row) (key : String) : JSValue :=
  if key = "id" then .vStr item.id
  else (List.lookup key item.fields).getD .vUndefined

/-- Parse a (possibly signed) run of decimal digits covering the whole
input; `none` models NaN. -/
def parseIntAll (cs : List Char) : Option Int :=
  let (sign, rest) :=
    match cs with
    | '-' :: t => ((-1 : Int), t)
    | '+' :: t => ((1 : Int), t)
    | t => ((1 : Int), t)
  if rest ≠ [] ∧ rest.all Char.isDigit then
    some (sign * rest.foldl (fun acc c => acc * 10 + ((c.toNat : Int) - 48)) 0)
  else none

/-- Parse a (possibly signed) leading run of decimal digits, ignoring any
trailing garbage; `none` models NaN.  Models `parseFloat` restricted to the
integral values used throughout this development. -/
def parseIntLeading (cs : List Char) : Option Int :=
  let cs := cs.dropWhile Char.isWhitespace
  let (sign, rest) :=
    match cs with
    | '-' :: t => ((-1 : Int), t)
    | '+' :: t => ((1 : Int), t)
    | t => ((1 : Int), t)
  let digits := rest.takeWhile Char.isDigit
  if digits ≠ [] then
    some (sign * digits.foldl (fun acc c => acc * 10 + ((c.toNat : Int) - 48)) 0)
  else none

/-- JavaScript `Number(p)` coercion of a primitive; `none` models NaN. -/
def jsNumberPrim : JSPrim → Option Int
  | .pNum n => some n
  | .pStr s =>
      let t := s.trim
      if t = "" then some 0 else parseIntAll t.toList
  | .pBool b => some (if b then 1 else 0)
  | .pNull => some 0
  | .pUndefined => none

/-- JavaScript `Number(value)` coercion; `none` models NaN.  Numbers are
modelled as integers. -/
def jsNumber : JSValue → Option Int
  | .vNum n => some n
  | .vStr s =>
      let t := s.trim
      if t = "" then some 0 else parseIntAll t.toList
  | .vBool b => some (if b then 1 else 0)
  | .vNull => some 0
  | .vUndefined => none
  | .vArr [] => some 0
  | .vArr [p] => jsNumberPrim p
  | .vArr _ => none

/-- Is a proleptic Gregorian year a leap year. -/
def isLeapYear (y : Int) : Bool :=
  (y % 4 == 0 && y % 100 != 0) || y % 400 == 0

/-- Number of days in a month. -/
def daysInMonth (y m : Int) : Int :=
  if m = 2 then (if isLeapYear y then 29 else 28)
  else if m = 4 ∨ m = 6 ∨ m = 9 ∨ m = 11 then 30
  else 31

/-- Days since the Unix epoch of a civil date (Gregorian calendar). -/
def daysFromCivil (y m d : Int) : Int :=
  let y1 := if m ≤ 2 then y - 1 else y
  let era := Int.fdiv y1 400
  let yoe := y1 - era * 400
  let mp := if m > 2 then m - 3 else m + 9
  let doy := (153 * mp + 2) / 5 + d - 1
  let doe := yoe * 365 + yoe / 4 - yoe / 100 + doy
  era * 146097 + doe - 719468

/-- Civil date (year, month, day) of a days-since-epoch count. -/
def civilFromDays (z0 : Int) : Int × Int × Int :=
  let z := z0 + 719468
  let era := Int.fdiv z 146097
  let doe := z - era * 146097
  let yoe := (doe - doe / 1460 + doe / 36524 - doe / 146096) / 365
  let y := yoe + era * 400
  let doy := doe - (365 * yoe + yoe / 4 - yoe / 100)
  let mp := (5 * doy + 2) / 153
  let d := doy - (153 * mp + 2) / 5 + 1
  let m := if mp < 10 then mp + 3 else mp - 9
  (if m ≤ 2 then y + 1 else y, m, d)

/-- Decimal digit value of a character. -/
def digitVal (c : Char) : Int := (c.toNat : Int) - 48

/-- Parse an ISO `YYYY-MM-DD` date string, validating the month and day.
Models the date-only subset of JavaScript date parsing actually exercised
by the grid (filter inputs of type `date` produce exactly this format);
any other string is modelled as unparsable (an Invalid Date). -/
def parseYMD (s : String) : Option (Int × Int × Int) :=
  match s.toList with
  | [y1, y2, y3, y4, h1, m1, m2, h2, d1, d2] =>
      if h1 = '-' ∧ h2 = '-' ∧ ([y1, y2, y3, y4, m1, m2, d1, d2].all Char.isDigit) then
        let y := digitVal y1 * 1000 + digitVal y2 * 100 + digitVal y3 * 10 + digitVal y4
        let mo := digitVal m1 * 10 + digitVal m2
        let da := digitVal d1 * 10 + digitVal d2
        if 1 ≤ mo ∧ mo ≤ 12 ∧ 1 ≤ da ∧ da ≤ daysInMonth y mo then
          some (y, mo, da)
        else none
      else none
  | _ => none

/-- Milliseconds-since-epoch of `new Date(value)`; `none` models an Invalid
Date.  The `Date` constructor never throws: invalid inputs yield an Invalid
Date object.  Time zone is modelled as UTC. -/
def jsDateMs : JSValue → Option Int
  | .vNum n => some n
  | .vStr s => (parseYMD s).map (fun ymd => daysFromCivil ymd.1 ymd.2.1 ymd.2.2 * 86400000)
  | .vNull => some 0
  | .vBool b => some (if b then 1 else 0)
  | .vUndefined => none
  | .vArr _ => none

/-- Calendar day of `new Date(value)` (the content of `toDateString()`);
`none` models the string "Invalid Date". -/
def jsDateDay (v : JSValue) : Option Int :=
  (jsDateMs v).map (fun ms => Int.fdiv ms 86400000)

/-- Group a reversed digit list into blocks of three separated by commas
(the thousands grouping of `toLocaleString`). -/
def group3 : List Char → List Char
  | a :: b :: c :: d :: rest => a :: b :: c :: ',' :: group3 (d :: rest)
  | l => l

/-- JavaScript `n.toLocaleString()` for integers: decimal digits with
thousands separators. -/
def jsToLocaleString (n : Int) : String :=
  let sign := if n < 0 then "-" else ""
  let digits := (toString n.natAbs).toList
  sign ++ String.mk (group3 digits.reverse).reverse

/-- Render the calendar day of a days-since-epoch count as `M/D/YYYY`
(model of `toLocaleDateString`). -/
def renderDate (day : Int) : String :=
  let ymd := civilFromDays day
  toString ymd.2.1 ++ "/" ++ toString ymd.2.2 ++ "/" ++ toString ymd.1

/-- Render a milliseconds-since-epoch count as date plus time (model of
`toLocaleString` on a date). -/
def renderDateTime (ms : Int) : String :=
  let day := Int.fdiv ms 86400000
  let rem := ms - day * 86400000
  renderDate day ++ ", " ++ toString (rem / 3600000) ++ ":" ++
    toString (rem % 3600000 / 60000) ++ ":" ++ toString (rem % 60000 / 1000)

/-- Column semantic types recognized by the formatter and the table
(`ColumnConfig.type`).  The `text` constructor stands for the default
branch of the formatter's switch. -/
inductive ColumnType where
  | text
  | currency
  | percentage
  | date
  | datetimeLocal
  | checkbox
  | select
  | multiselect
deriving DecidableEq, Repr

/-- Column configuration, restricted to the fields the embedded logic
reads: key, semantic type, sortability and searchability.  `searchable`
is optional because the source tests `searchable !== false`. -/
structure ColumnConfig where
  key : String
  label : String := ""
  type : ColumnType := .text
  sortable : Bool := false
  searchable : Option Bool := none
deriving Repr

/-- The type-directed display formatter `formatValue(value, column)` of
DynamicTable.tsx.  Null and undefined always render as "-".  The
try/catch blocks of the source never fire (`new Date` does not throw),
so the model is total. -/
def formatValue (value : JSValue) (column : ColumnConfig) : String :=
  if isNullish value then "-"
  else
    match column.type with
    | .currency =>
        let numValue : Option Int :=
          match value with
          | .vStr s => parseIntLeading (s.toList.filter fun c => c ≠ '$' ∧ c ≠ ',')
          | .vNum n => some n
          | _ => some 0
        match numValue with
        | none => "$0"
        | some n => "$" ++ jsToLocaleString n
    | .percentage =>
        let percentValue := (jsNumber value).getD 0
        toString percentValue ++ "%"
    | .date =>
        match jsDateMs value with
        | none => "Invalid Date"
        | some ms => renderDate (Int.fdiv ms 86400000)
    | .datetimeLocal =>
        match jsDateMs value with
        | none => "Invalid Date"
        | some ms => renderDateTime ms
    | .checkbox => if jsFalsy value then "No" else "Yes"
    | _ =>
        match value with
        | .vArr l =>
            String.intercalate ", " (l.map fun p =>
              if jsFalsy p.toVal then "" else p.toStr)
        | v => if jsFalsy v then "" else jsToString v

/-- Filter semantic types (`FilterConfig.type`). -/
inductive FilterType where
  | select
  | date
  | daterange
  | number
  | text
deriving DecidableEq, Repr

/-- Filter configuration, restricted to the fields the embedded logic
reads. -/
structure FilterConfig where
  key : String
  label : String := ""
  type : FilterType
  multiple : Bool := false
deriving Repr

/-- A value held in the active-filter state: an ordinary value, or a
date-range object `{start?, end?}`. -/
inductive FilterVal where
  | val (v : JSValue)
  | range (rangeStart : Option String) (rangeEnd : Option String)
deriving DecidableEq, Repr

/-- An active-filter entry is skipped when its value is falsy or the
sentinel "all" (`!filterValue || filterValue === "all"`).  A range object
is always truthy. -/
def filterSkipped : FilterVal → Bool
  | .val v => jsFalsy v || jsStrictEq v (.vStr "all")
  | .range _ _ => false

/-- Single-value select match: the row's field equals the filter value, or
if the row's field is an array, the array contains the value. -/
def selectMatch (itemValue : JSValue) (fv : JSValue) : Bool :=
  match itemValue with
  | .vArr l => l.any fun p => jsStrictEq p.toVal fv
  | _ => jsStrictEq itemValue fv

/-- Does `needle` occur as a contiguous run inside `hay`. -/
def charsInclude (needle hay : List Char) : Bool :=
  match hay with
  | [] => needle.isEmpty
  | _ :: t => needle.isPrefixOf hay || charsInclude needle t

/-- Case-insensitive inclusion test `hay.toLowerCase().includes(needle.toLowerCase())`. -/
def strIncludesLower (hay needle : String) : Bool :=
  charsInclude needle.toLower.toList hay.toLower.toList

/-- The per-type filter predicate applied to one row field
(the `switch (filter.type)` inside `filteredData`).  For the `text` case
the filter value is cast to a string in the source; non-string filter
values for a text filter are unreachable and modelled via their string
form. -/
def filterPass (filter : FilterConfig) (itemValue : JSValue) (filterValue : FilterVal) : Bool :=
  match filter.type with
  | .select =>
      match filterValue with
      | .val (.vArr fl) =>
          if filter.multiple then fl.any fun p => selectMatch itemValue p.toVal
          else selectMatch itemValue (.vArr fl)
      | .val v => selectMatch itemValue v
      | .range _ _ => false
  | .date =>
      let fvJS := match filterValue with
        | .val v => v
        | .range _ _ => .vUndefined
      jsDateDay itemValue == jsDateDay fvJS
  | .daterange =>
      match filterValue with
      | .range (some st) (some en) =>
          if st ≠ "" ∧ en ≠ "" then
            match jsDateMs itemValue, jsDateMs (.vStr st), jsDateMs (.vStr en) with
            | some i, some s0, some e0 => decide (s0 ≤ i ∧ i ≤ e0)
            | _, _, _ => false
          else true
      | .range _ _ => true
      | .val _ => true
  | .number =>
      let fvJS := match filterValue with
        | .val v => v
        | .range _ _ => .vUndefined
      match jsNumber itemValue, jsNumber fvJS with
      | some a, some b => a == b
      | _, _ => false
  | .text =>
      if isNullish itemValue then false
      else
        let fs := match filterValue with
          | .val v => jsToString v
          | .range _ _ => ""
        strIncludesLower (jsToString itemValue) fs

/-- Search predicate of the query pipeline: some column not marked
`searchable: false` formats (via `formatValue`) to a string containing the
lowercased term; null/undefined fields never match. -/
def searchPass (columns : List ColumnConfig) (searchTerm : String) (item : Row) : Bool :=
  (columns.filter fun col => col.searchable ≠ some false).any fun column =>
    let value := rowGet item column.key
    if isNullish value then false
    else strIncludesLower (formatValue value column) searchTerm

/-- Apply every non-skipped active filter whose `FilterConfig` exists,
ANDed across filter keys (the `Object.entries(activeFilters).forEach`
loop). -/
def applyFilters (filters : List FilterConfig) (activeFilters : List (String × FilterVal))
    (rows : List Row) : List Row :=
  activeFilters.foldl (fun acc kv =>
    let filterKey := kv.1
    let filterValue := kv.2
    if filterSkipped filterValue then acc
    else
      match filters.find? (fun f => f.key == filterKey) with
      | none => acc
      | some filter => acc.filter fun item => filterPass filter (rowGet item filterKey) filterValue)
    rows

/-- Sort directions. -/
inductive SortDir where
  | asc
  | desc
deriving DecidableEq, Repr

/-- The active sort spec `{key, direction}`. -/
structure SortConfig where
  key : String
  direction : SortDir
deriving DecidableEq, Repr

/-- Integer result of `a.localeCompare(b)`, modelled as lexicographic
string comparison. -/
def strCompareInt (a b : String) : Int :=
  match compare a b with
  | .lt => -1
  | .eq => 0
  | .gt => 1

/-- The sort comparator of `filteredData`: null/undefined values compare
as maximal before the direction is applied; numbers compare by
subtraction, everything else by string comparison; descending negates the
comparison. -/
def sortCompare (sc : SortConfig) (a b : Row) : Int :=
  let aValue := rowGet a sc.key
  let bValue := rowGet b sc.key
  if isNullish aValue then 1
  else if isNullish bValue then -1
  else
    let comparison : Int :=
      match aValue, bValue with
      | .vNum x, .vNum y => x - y
      | _, _ => strCompareInt (jsToString aValue) (jsToString bValue)
    if sc.direction = .desc then -comparison else comparison

/-- Stable insertion of `x` into a sorted list: `x` goes immediately
before the first element it compares strictly below. -/
def sortInsert (lt : Row → Row → Bool) (x : Row) : List Row → List Row
  | [] => [x]
  | y :: ys => if lt x y then x :: y :: ys else y :: sortInsert lt x ys

/-- Model of `Array.prototype.sort` with a comparator: a stable
comparison sort (insertion sort), `lt a b` meaning the comparator returned
a negative number. -/
def jsSort (lt : Row → Row → Bool) (l : List Row) : List Row :=
  l.foldl (fun acc x => sortInsert lt x acc) []

/-- Boolean strictly-below relation derived from the sort comparator. -/
def sortLtRow (sc : SortConfig) (a b : Row) : Bool :=
  decide (sortCompare sc a b < 0)

/-- Model of `filtered.sort(comparator)` for the active sort spec. -/
def sortRows (sc : SortConfig) (l : List Row) : List Row :=
  jsSort (sortLtRow sc) l

/-- Caller-supplied table configuration (all fields optional).  Supplying
a key with an explicit `undefined` value is not modelled; absent and
undefined coincide as `none`. -/
structure TableConfig where
  title : Option String := none
  description : Option String := none
  searchPlaceholder : Option String := none
  itemsPerPage : Option Nat := none
  enableSearch : Option Bool := none
  enableFilters : Option Bool := none
  enablePagination : Option Bool := none
  enableSelection : Option Bool := none
  enableSorting : Option Bool := none
  stickyHeader : Option Bool := none
  striped : Option Bool := none
  bordered : Option Bool := none
  compact : Option Bool := none
  className : Option String := none
  emptyMessage : Option String := none
  loadingMessage : Option String := none
deriving DecidableEq, Repr

/-- Fully resolved configuration (`Required<TableConfig>`). -/
structure ResolvedTableConfig where
  title : String
  description : String
  searchPlaceholder : String
  itemsPerPage : Nat
  enableSearch : Bool
  enableFilters : Bool
  enablePagination : Bool
  enableSelection : Bool
  enableSorting : Bool
  stickyHeader : Bool
  striped : Bool
  bordered : Bool
  compact : Bool
  className : String
  emptyMessage : String
  loadingMessage : String
deriving DecidableEq, Repr

/-- The Configuration Normalizer: the `config` object of DynamicTable.tsx,
spreading the caller's partial configuration over the documented
defaults. -/
def mkConfig (tableConfig : TableConfig) : ResolvedTableConfig where
  title := tableConfig.title.getD "Data Table"
  description := tableConfig.description.getD ""
  searchPlaceholder := tableConfig.searchPlaceholder.getD "Search..."
  itemsPerPage := tableConfig.itemsPerPage.getD 10
  enableSearch := tableConfig.enableSearch.getD true
  enableFilters := tableConfig.enableFilters.getD true
  enablePagination := tableConfig.enablePagination.getD true
  enableSelection := tableConfig.enableSelection.getD false
  enableSorting := tableConfig.enableSorting.getD true
  stickyHeader := tableConfig.stickyHeader.getD false
  striped := tableConfig.striped.getD true
  bordered := tableConfig.bordered.getD false
  compact := tableConfig.compact.getD false
  className := tableConfig.className.getD ""
  emptyMessage := tableConfig.emptyMessage.getD "No data found"
  loadingMessage := tableConfig.loadingMessage.getD "Loading..."

/-- The Query Pipeline (`filteredData` memo): search, then filters, then
sort, each stage gated by its enable flag. -/
def filteredData (cfg : ResolvedTableConfig) (columns : List ColumnConfig)
    (filters : List FilterConfig) (localData : List Row) (searchTerm : String)
    (activeFilters : List (String × FilterVal)) (sortConfig : Option SortConfig) : List Row :=
  let filtered := localData
  let filtered :=
    if cfg.enableSearch ∧ searchTerm ≠ "" then
      filtered.filter (searchPass columns searchTerm)
    else filtered
  let filtered :=
    if cfg.enableFilters then applyFilters filters activeFilters filtered else filtered
  if cfg.enableSorting then
    match sortConfig with
    | some sc => sortRows sc filtered
    | none => filtered
  else filtered

/-- Model of `Math.ceil(count / itemsPerPage)` on naturals; division by zero yields
0, which agrees with the source on every guarded use. -/
def ceilPages (count itemsPerPage : Nat) : Nat :=
  (count + itemsPerPage - 1) / itemsPerPage

/-- The `totalPages` value of the pagination slicer. -/
def totalPages (cfg : ResolvedTableConfig) (filtered : List Row) : Nat :=
  ceilPages filtered.length cfg.itemsPerPage

/-- The Pagination Slicer (`currentData`): the page window
`[(currentPage-1)*itemsPerPage, +itemsPerPage)` when pagination is
enabled, the whole filtered sequence otherwise. -/
def currentData (cfg : ResolvedTableConfig) (filtered : List Row) (currentPage : Nat) : List Row :=
  if cfg.enablePagination then
    (filtered.drop ((currentPage - 1) * cfg.itemsPerPage)).take cfg.itemsPerPage
  else filtered

/-- The delete-confirmation dialog state (`deleteConfirm`).  The `open`
flag of the source is renamed `openFlag` (`open` is reserved in Lean). -/
structure DeleteConfirm where
  openFlag : Bool
  itemId : String
  itemName : String
deriving DecidableEq, Repr

/-- Component-local state of the Data Grid Engine. -/
structure GridState where
  localData : List Row
  searchTerm : String := ""
  activeFilters : List (String × FilterVal) := []
  sortConfig : Option SortConfig := none
  currentPage : Nat := 1
  selectedItems : List String := []
  deleteConfirm : DeleteConfirm := ⟨false, "", ""⟩
deriving Repr

/-- Collaborator invocations emitted by a mutation, in call order. -/
inductive TableEvent where
  | dataChange (rows : List Row)
  | itemDelete (id : String)
deriving DecidableEq, Repr

/-- The Query Pipeline applied to a grid state. -/
def gridFiltered (cfg : ResolvedTableConfig) (columns : List ColumnConfig)
    (filters : List FilterConfig) (s : GridState) : List Row :=
  filteredData cfg columns filters s.localData s.searchTerm s.activeFilters s.sortConfig

/-- The rows rendered on the current page of a grid state. -/
def gridCurrentData (cfg : ResolvedTableConfig) (columns : List ColumnConfig)
    (filters : List FilterConfig) (s : GridState) : List Row :=
  currentData cfg (gridFiltered cfg columns filters s) s.currentPage

/-- The handler `handleDelete(item)`: open the confirmation dialog for one row.  The
display name is `item.name?.toString() || item.id`. -/
def handleDelete (item : Row) (s : GridState) : GridState × List TableEvent :=
  let nameVal := rowGet item "name"
  let itemName :=
    if isNullish nameVal ∨ jsToString nameVal = "" then item.id else jsToString nameVal
  ({ s with deleteConfirm := ⟨true, item.id, itemName⟩ }, [])

/-- The bulk-delete button: open the confirmation dialog with the sentinel
item id "bulk". -/
def requestBulkDelete (s : GridState) : GridState × List TableEvent :=
  ({ s with deleteConfirm :=
      ⟨true, "bulk", toString s.selectedItems.length ++ " selected items"⟩ }, [])

/-- Cancelling (or dismissing) the confirmation dialog resets
`deleteConfirm` and nothing else. -/
def cancelDelete (s : GridState) : GridState × List TableEvent :=
  ({ s with deleteConfirm := ⟨false, "", ""⟩ }, [])

/-- The `newTotalPages` recomputed inside `confirmDelete`: a ceiling
division of the post-deletion count of `localData` (not of the filtered
sequence) by the page size, with the single-item branch using
`localData.length - 1`. -/
def newTotalPagesAfterDelete (cfg : ResolvedTableConfig) (s : GridState) : Nat :=
  ceilPages
    (if s.deleteConfirm.itemId = "bulk" then
      (s.localData.filter fun item => !(s.selectedItems.contains item.id)).length
     else s.localData.length - 1)
    cfg.itemsPerPage

/-- The handler `confirmDelete()`: remove the targeted row (or all selected rows),
notify the `onDataChange` and `onItemDelete` collaborators, reset the
dialog, and clamp the page index when the recomputed `newTotalPages` is
positive and exceeded. -/
def confirmDelete (cfg : ResolvedTableConfig) (s : GridState) : GridState × List TableEvent :=
  let base :=
    if s.deleteConfirm.itemId = "bulk" then
      let updatedData := s.localData.filter fun item => !(s.selectedItems.contains item.id)
      ({ s with localData := updatedData, selectedItems := [] },
       TableEvent.dataChange updatedData :: s.selectedItems.map TableEvent.itemDelete)
    else
      let updatedData := s.localData.filter fun item => item.id ≠ s.deleteConfirm.itemId
      ({ s with localData := updatedData },
       [TableEvent.dataChange updatedData, TableEvent.itemDelete s.deleteConfirm.itemId])
  let s1 := { base.1 with deleteConfirm := ⟨false, "", ""⟩ }
  let newTotal := newTotalPagesAfterDelete cfg s
  let s2 := if s.currentPage > newTotal ∧ newTotal > 0 then { s1 with currentPage := newTotal } else s1
  (s2, base.2)

/-- The handler `handleSelectAll(checked)`: checking selects exactly the ids of the
rows on the current page; unchecking clears the selection. -/
def handleSelectAll (cfg : ResolvedTableConfig) (columns : List ColumnConfig)
    (filters : List FilterConfig) (checked : Bool) (s : GridState) : GridState :=
  if checked then
    { s with selectedItems := (gridCurrentData cfg columns filters s).map Row.id }
  else
    { s with selectedItems := [] }

/-- A form record (`formData` of DynamicEditModal): an open mapping from
field keys to values. -/
abbrev FormRecord : Type := List (String × JSValue)

/-- Property access `formData[key]`; a missing key reads as `undefined`. -/
def getProp (formData : FormRecord) (key : String) : JSValue :=
  (List.lookup key formData).getD .vUndefined

/-- Validation rule set of a form field (`config.validation`).  The
regular-expression `pattern` is modelled as an injected match predicate
on strings; a supplied pattern is assumed non-empty (truthy). -/
structure FieldValidation where
  min : Option Int := none
  max : Option Int := none
  minLength : Option Nat := none
  maxLength : Option Nat := none
  pattern : Option (String → Bool) := none
  custom : Option (JSValue → Option String) := none

/-- Form-field configuration, restricted to the fields the embedded logic
reads.  `showWhen` is the conditional-visibility predicate over the
record. -/
structure FormFieldConfig where
  key : String
  label : String
  fieldType : String := "text"
  required : Bool := false
  validation : Option FieldValidation := none
  showWhen : Option (FormRecord → Bool) := none

/-- Is the value a string that is blank after trimming. -/
def isBlankString : JSValue → Bool
  | .vStr s => s.trim == ""
  | _ => false

/-- Per-field validation of `validateForm`, collapsed to the final error
message assigned for the field (later failing checks overwrite earlier
ones, exactly as the sequential `newErrors[config.key] = ...` assignments
do): the required check short-circuits; an empty (falsy) non-required
value skips every check; then length/pattern checks for strings, range
checks for numbers, and the custom validator (whose non-empty result
overwrites) run in source order. -/
def fieldError (config : FormFieldConfig) (value : JSValue) : Option String :=
  if config.required && (jsFalsy value || isBlankString value) then
    some (config.label ++ " is required")
  else if jsFalsy value then none
  else
    match config.validation with
    | none => none
    | some v =>
        let e0 : Option String := none
        let e1 :=
          match value with
          | .vStr s =>
              let a :=
                match v.minLength with
                | some ml =>
                    if ml ≠ 0 ∧ s.length < ml then
                      some (config.label ++ " must be at least " ++ toString ml ++ " characters")
                    else e0
                | none => e0
              let b :=
                match v.maxLength with
                | some ml =>
                    if ml ≠ 0 ∧ s.length > ml then
                      some (config.label ++ " must be no more than " ++ toString ml ++ " characters")
                    else a
                | none => a
              match v.pattern with
              | some p => if !(p s) then some (config.label ++ " format is invalid") else b
              | none => b
          | .vNum n =>
              let a :=
                match v.min with
                | some m =>
                    if n < m then some (config.label ++ " must be at least " ++ toString m)
                    else e0
                | none => e0
              match v.max with
              | some m =>
                  if n > m then some (config.label ++ " must be no more than " ++ toString m)
                  else a
              | none => a
          | _ => e0
        match v.custom with
        | some f =>
            match f value with
            | some s => if s ≠ "" then some s else e1
            | none => e1
        | none => e1

/-- The error object built by `validateForm`, modelled as an association
list in most-recent-assignment-first order (a later assignment to the
same key shadows the earlier one for lookup, as in a JavaScript object). -/
def validateErrorsAux (fieldConfigs : List FormFieldConfig) (formData : FormRecord)
    (acc : List (String × String)) : List (String × String) :=
  match fieldConfigs with
  | [] => acc
  | config :: rest =>
      let acc1 :=
        match fieldError config (getProp formData config.key) with
        | some e => (config.key, e) :: acc
        | none => acc
      validateErrorsAux rest formData acc1

/-- The error mapping produced by one run of `validateForm`. -/
def validateErrors (fieldConfigs : List FormFieldConfig) (formData : FormRecord) :
    List (String × String) :=
  validateErrorsAux fieldConfigs formData []

/-- Lookup in the error mapping (field key to latest message). -/
def lookupErr (errors : List (String × String)) (key : String) : Option String :=
  List.lookup key errors

/-- The boolean result of `validateForm`: no error was recorded. -/
def validateForm (fieldConfigs : List FormFieldConfig) (formData : FormRecord) : Bool :=
  validateErrors fieldConfigs formData == []

/-- The visibility guard at the top of `renderFormField`: a field whose
`showWhen` predicate rejects the current record renders nothing. -/
def fieldVisible (config : FormFieldConfig) (formData : FormRecord) : Bool :=
  match config.showWhen with
  | some p => p formData
  | none => true

/-- The handler `handleSave`: validation gates the `onSave` collaborator; the result
is the saved record (`some`) or no invocation (`none`).  The merge of
uploaded files into the record is outside the model (browser `File`
handles). -/
def handleSave (fieldConfigs : List FormFieldConfig) (formData : Option FormRecord) :
    Option FormRecord :=
  match formData with
  | none => none
  | some fd => if validateForm fieldConfigs fd then some fd else none

/-- Strip the visibility predicate from a field configuration. -/
def clearShowWhen (config : FormFieldConfig) : FormFieldConfig :=
  { config with showWhen := none }

/-- Concatenation of the page slices for pages 1 through `k`. -/
def concatPages (cfg : ResolvedTableConfig) (l : List Row) : Nat → List Row
  | 0 => []
  | k + 1 => concatPages cfg l k ++ currentData cfg l (k + 1)

/-- Specification of the page-index adjustment actually performed by
`confirmDelete` (the amended form of claim C1): writing `newTotal` for the
`newTotalPages` the source recomputes from the post-deletion unfiltered
row count, the page index stays at least 1, is clamped to `newTotal`
exactly when `newTotal` is positive and exceeded, and is left unchanged
whenever `newTotal` is zero. -/
def PageClampAmendedSpec (cfg : ResolvedTableConfig) (s after : GridState) : Prop :=
  1 ≤ after.currentPage
  ∧ (0 < newTotalPagesAfterDelete cfg s →
      after.currentPage ≤ newTotalPagesAfterDelete cfg s)
  ∧ (s.currentPage > newTotalPagesAfterDelete cfg s →
      0 < newTotalPagesAfterDelete cfg s →
      after.currentPage = newTotalPagesAfterDelete cfg s)
  ∧ (newTotalPagesAfterDelete cfg s = 0 → after.currentPage = s.currentPage)

/-- Specification of a confirmed bulk deletion (the amended form of claim
C4): the surviving rows are exactly the rows whose id is not selected, the
`onItemDelete` collaborator is invoked once per id in the selection list in
order — including ids that matched no row — after a single `onDataChange`,
and the selection is cleared. -/
def BulkDeleteAmendedSpec (s : GridState) (result : GridState × List TableEvent) : Prop :=
  (∀ r : Row, r ∈ result.1.localData ↔ r ∈ s.localData ∧ r.id ∉ s.selectedItems)
  ∧ result.2 = TableEvent.dataChange result.1.localData ::
      s.selectedItems.map TableEvent.itemDelete
  ∧ result.1.selectedItems = []

/-- Specification of the date filter predicate (the amended form of claim
C9): a row passes iff its field and the filter value normalize to the same
`toDateString` result, where every unparsable value normalizes to the same
"Invalid Date" marker — so two unparsable values match each other and the
row is included, while exactly one unparsable side excludes the row. -/
def DateFilterAmendedSpec (filter : FilterConfig) (itemValue fv : JSValue) : Prop :=
  (filterPass filter itemValue (.val fv) = true ↔ jsDateDay itemValue = jsDateDay fv)
  ∧ (jsDateDay itemValue = none → jsDateDay fv = none →
      filterPass filter itemValue (.val fv) = true)
  ∧ (∀ d : Int, jsDateDay itemValue = some d → jsDateDay fv = none →
      filterPass filter itemValue (.val fv) = false)
  ∧ (∀ d : Int, jsDateDay itemValue = none → jsDateDay fv = some d →
      filterPass filter itemValue (.val fv) = false)

/-- Claim C8 counterexample: on an empty partial configuration the
normalizer resolves `striped` to `true`, not to the non-striped layout the
claim asserts. -/
theorem C8_counterexample :
    (mkConfig {}).striped = true ∧ ((mkConfig {}).striped == false) = false := by
  exact ⟨rfl, rfl⟩

/-- Claim C8 (amended): the normalizer applied to an empty partial
configuration resolves the documented defaults — search, filters,
pagination (page size 10) and sorting enabled, selection disabled,
non-bordered and non-compact but STRIPED layout, fixed messages — and any
caller-supplied option overrides its default; the normalizer is a total
function and never fails. -/
theorem C8_config_defaults_amended :
    mkConfig {} = { title := "Data Table"
                    description := ""
                    searchPlaceholder := "Search..."
                    itemsPerPage := 10
                    enableSearch := true
                    enableFilters := true
                    enablePagination := true
                    enableSelection := false
                    enableSorting := true
                    stickyHeader := false
                    striped := true
                    bordered := false
                    compact := false
                    className := ""
                    emptyMessage := "No data found"
                    loadingMessage := "Loading..." }
    ∧ ∀ (t d sp : String) (ipp : Nat) (es ef ep esel esort sh st bd cp : Bool)
        (cn em lm : String),
        mkConfig ⟨some t, some d, some sp, some ipp, some es, some ef, some ep, some esel,
          some esort, some sh, some st, some bd, some cp, some cn, some em, some lm⟩ =
        ⟨t, d, sp, ipp, es, ef, ep, esel, esort, sh, st, bd, cp, cn, em, lm⟩ :=
  ⟨rfl, fun _ _ _ _ _ _ _ _ _ _ _ _ _ _ _ _ => rfl⟩

/-- Claim C3: requesting a delete (for one row or for the selected set)
and cancelling the confirmation only change the dialog state — the rows,
the selection and the page index are untouched and no collaborator is
invoked; only an explicit confirm emits collaborator notifications. -/
theorem C3_delete_requires_confirmation :
    ∀ (cfg : ResolvedTableConfig) (item : Row) (s : GridState),
      ((handleDelete item s).1.localData = s.localData
        ∧ (handleDelete item s).1.selectedItems = s.selectedItems
        ∧ (handleDelete item s).1.currentPage = s.currentPage
        ∧ (handleDelete item s).2 = [])
      ∧ ((requestBulkDelete s).1.localData = s.localData
        ∧ (requestBulkDelete s).1.selectedItems = s.selectedItems
        ∧ (requestBulkDelete s).1.currentPage = s.currentPage
        ∧ (requestBulkDelete s).2 = [])
      ∧ ((cancelDelete s).1.localData = s.localData
        ∧ (cancelDelete s).1.selectedItems = s.selectedItems
        ∧ (cancelDelete s).1.currentPage = s.currentPage
        ∧ (cancelDelete s).2 = [])
      ∧ (confirmDelete cfg s).2.isEmpty = false := by
  intro cfg item s
  refine ⟨⟨rfl, rfl, rfl, rfl⟩, ⟨rfl, rfl, rfl, rfl⟩, ⟨rfl, rfl, rfl, rfl⟩, ?_⟩
  unfold confirmDelete
  dsimp only
  split <;> simp

/-- Claim C10: checking the header select-all checkbox replaces the
selection with exactly the ids of the rows on the current page (previously
selected ids from other pages are discarded); unchecking it empties the
selection entirely; the rows themselves are untouched. -/
theorem C10_select_all :
    ∀ (cfg : ResolvedTableConfig) (columns : List ColumnConfig)
      (filters : List FilterConfig) (s : GridState),
      (handleSelectAll cfg columns filters true s).selectedItems
          = (gridCurrentData cfg columns filters s).map Row.id
      ∧ (handleSelectAll cfg columns filters false s).selectedItems = []
      ∧ (handleSelectAll cfg columns filters true s).localData = s.localData
      ∧ (handleSelectAll cfg columns filters false s).localData = s.localData :=
  fun _ _ _ _ => ⟨rfl, rfl, rfl, rfl⟩

/-- Claim C1 counterexample.  First scenario: page size 1, rows a and b,
page 2, bulk-deleting both leaves `currentPageIndex` at 2, although the
claimed `max(1, newTotalPages)` is 1.  Second scenario: page size 1, an
active select filter keeping rows b and c, page 2, single-deleting row c
leaves the page index at 2, although the filtered count drops to one row
and the claimed clamp target is 1 (the source recomputes `newTotalPages`
from the unfiltered count 2, so no clamp fires). -/
theorem C1_counterexample :
    ((confirmDelete (mkConfig { itemsPerPage := some 1 })
        ⟨[⟨"a", []⟩, ⟨"b", []⟩], "", [], none, 2, ["a", "b"],
          ⟨true, "bulk", ""⟩⟩).1.currentPage = 2
      ∧ max 1 (totalPages (mkConfig { itemsPerPage := some 1 })
          (filteredData (mkConfig { itemsPerPage := some 1 }) [] []
            (confirmDelete (mkConfig { itemsPerPage := some 1 })
              ⟨[⟨"a", []⟩, ⟨"b", []⟩], "", [], none, 2, ["a", "b"],
                ⟨true, "bulk", ""⟩⟩).1.localData
            "" [] none)) = 1)
    ∧ ((confirmDelete (mkConfig { itemsPerPage := some 1 })
        ⟨[⟨"a", [("cat", JSValue.vStr "x")]⟩, ⟨"b", [("cat", JSValue.vStr "y")]⟩,
            ⟨"c", [("cat", JSValue.vStr "y")]⟩], "",
          [("cat", FilterVal.val (JSValue.vStr "y"))], none, 2, [],
          ⟨true, "c", "c"⟩⟩).1.currentPage = 2
      ∧ max 1 (totalPages (mkConfig { itemsPerPage := some 1 })
          (filteredData (mkConfig { itemsPerPage := some 1 }) []
            [⟨"cat", "", FilterType.select, false⟩]
            (confirmDelete (mkConfig { itemsPerPage := some 1 })
              ⟨[⟨"a", [("cat", JSValue.vStr "x")]⟩, ⟨"b", [("cat", JSValue.vStr "y")]⟩,
                  ⟨"c", [("cat", JSValue.vStr "y")]⟩], "",
                [("cat", FilterVal.val (JSValue.vStr "y"))], none, 2, [],
                ⟨true, "c", "c"⟩⟩).1.localData
            "" [("cat", FilterVal.val (JSValue.vStr "y"))] none)) = 1) := by
  decide

/-- Claim C2 counterexample: a required field whose `showWhen` predicate
rejects every record is excluded from rendering, yet `validateForm` still
records "X is required" for it — validation ignores the visibility
predicate. -/
theorem C2_counterexample :
    fieldVisible ⟨"x", "X", "text", true, none, some (fun _ => false)⟩ [] = false
    ∧ validateErrors [⟨"x", "X", "text", true, none, some (fun _ => false)⟩] []
        = [("x", "X is required")] := by
  exact ⟨rfl, by decide⟩

/-- Claim C4 counterexample: with rows = [a] and selection ["a", "b"]
(reachable: select a and b, single-delete b — the single-delete branch
does not clear the selection — then bulk delete), confirming the bulk
delete invokes `onItemDelete` for "b" even though no row with id "b" was
removed. -/
theorem C4_counterexample :
    (confirmDelete (mkConfig {})
        ⟨[⟨"a", []⟩], "", [], none, 1, ["a", "b"], ⟨true, "bulk", ""⟩⟩).2
      = [TableEvent.dataChange [], TableEvent.itemDelete "a", TableEvent.itemDelete "b"]
    ∧ (([⟨"a", []⟩] : List Row).map Row.id).contains "b" = false := by
  decide

/-- Claim C9 counterexample: both "not a date" and "garbage" are
unparsable, yet the date filter predicate returns true — both sides
normalize to "Invalid Date" and compare equal, so the row is included,
not excluded as the claim asserts. -/
theorem C9_counterexample :
    filterPass ⟨"d", "", FilterType.date, false⟩ (JSValue.vStr "not a date")
        (FilterVal.val (JSValue.vStr "garbage")) = true
    ∧ jsDateDay (JSValue.vStr "not a date") = none
    ∧ jsDateDay (JSValue.vStr "garbage") = none := by
  decide

/-- Inserting an element that the comparator sends past everything (its
sort value is nullish) into a list of such elements appends it at the
end. -/
theorem sortInsert_all_null (lt : Row → Row → Bool) (P : Row → Bool)
    (h1 : ∀ x y, P x = true → lt x y = false) :
    ∀ (q : List Row) (x : Row), q.all P = true → P x = true →
      sortInsert lt x q = q ++ [x] := by
  intro q
  induction q with
  | nil => intro x _ _; rfl
  | cons y ys ih =>
      intro x hq hx
      rw [List.all_cons, Bool.and_eq_true] at hq
      unfold sortInsert
      rw [h1 x y hx]
      simp [ih x hq.2 hx]

/-- Insertion preserves a decomposition into non-null-valued rows followed
by null-valued rows. -/
theorem sortInsert_split (lt : Row → Row → Bool) (P : Row → Bool)
    (h1 : ∀ x y, P x = true → lt x y = false)
    (h2 : ∀ x y, P x = false → P y = true → lt x y = true) :
    ∀ (p q : List Row) (x : Row),
      p.all (fun r => !P r) = true → q.all P = true →
      ∃ p2 q2, sortInsert lt x (p ++ q) = p2 ++ q2
        ∧ p2.all (fun r => !P r) = true ∧ q2.all P = true := by
  intro p
  induction p with
  | nil =>
      intro q x _ hq
      cases hx : P x with
      | true =>
          refine ⟨[], q ++ [x], ?_, rfl, ?_⟩
          · simpa using sortInsert_all_null lt P h1 q x hq hx
          · rw [List.all_append]
            simp [hq, hx]
      | false =>
          cases q with
          | nil => exact ⟨[x], [], rfl, by simp [hx], rfl⟩
          | cons y ys =>
              have hy : P y = true := by
                rw [List.all_cons, Bool.and_eq_true] at hq
                exact hq.1
              refine ⟨[x], y :: ys, ?_, by simp [hx], hq⟩
              show sortInsert lt x ([] ++ y :: ys) = [x] ++ (y :: ys)
              rw [List.nil_append]
              unfold sortInsert
              rw [h2 x y hx hy]
              rfl
  | cons z p' ih =>
      intro q x hp hq
      rw [List.all_cons, Bool.and_eq_true] at hp
      have hz : P z = false := by simpa using hp.1
      have hp' := hp.2
      cases hxz : lt x z with
      | true =>
          have hx : P x = false := by
            cases hxx : P x with
            | false => rfl
            | true =>
                rw [h1 x z hxx] at hxz
                cases hxz
          refine ⟨x :: z :: p', q, ?_, ?_, hq⟩
          · rw [List.cons_append]
            unfold sortInsert
            rw [hxz]
            simp
          · simp [List.all_cons, hx, hz, hp']
      | false =>
          obtain ⟨p2, q2, heq, hp2, hq2⟩ := ih q x hp' hq
          refine ⟨z :: p2, q2, ?_, ?_, hq2⟩
          · rw [List.cons_append]
            unfold sortInsert
            rw [hxz]
            simp [heq]
          · simp [List.all_cons, hz, hp2]

/-- The insertion-sort fold preserves the decomposition into non-null
rows followed by null rows. -/
theorem jsSort_split (lt : Row → Row → Bool) (P : Row → Bool)
    (h1 : ∀ x y, P x = true → lt x y = false)
    (h2 : ∀ x y, P x = false → P y = true → lt x y = true) :
    ∀ (l acc p q : List Row), acc = p ++ q →
      p.all (fun r => !P r) = true → q.all P = true →
      ∃ p2 q2, l.foldl (fun a x => sortInsert lt x a) acc = p2 ++ q2
        ∧ p2.all (fun r => !P r) = true ∧ q2.all P = true := by
  intro l
  induction l with
  | nil =>
      intro acc p q heq hp hq
      subst heq
      exact ⟨p, q, rfl, hp, hq⟩
  | cons x xs ih =>
      intro acc p q heq hp hq
      subst heq
      obtain ⟨p2, q2, heq2, hp2, hq2⟩ := sortInsert_split lt P h1 h2 p q x hp hq
      simpa [List.foldl_cons] using ih (sortInsert lt x (p ++ q)) p2 q2 heq2 hp2 hq2

/-- A row whose sort value is nullish never compares strictly below
anything: the comparator returns 1 before looking at the direction. -/
theorem sortLtRow_null_left (sc : SortConfig) :
    ∀ a b, isNullish (rowGet a sc.key) = true → sortLtRow sc a b = false := by
  intro a b h
  simp [sortLtRow, sortCompare, h]

/-- A row with a non-nullish sort value compares strictly below any row
with a nullish value, in either direction. -/
theorem sortLtRow_null_right (sc : SortConfig) :
    ∀ a b, isNullish (rowGet a sc.key) = false → isNullish (rowGet b sc.key) = true →
      sortLtRow sc a b = true := by
  intro a b ha hb
  simp [sortLtRow, sortCompare, ha, hb]

/-- Claim C5: in the output of the sort stage every row whose sort-key
value is null or undefined appears after all rows with a non-nullish
value, for both directions; concretely, score values [null, 10, 5] sort
ascending to [5, 10, null] and descending to [10, 5, null]. -/
theorem C5_nulls_sort_last :
    (∀ (sc : SortConfig) (l : List Row), ∃ p q,
        sortRows sc l = p ++ q
        ∧ p.all (fun r => !isNullish (rowGet r sc.key)) = true
        ∧ q.all (fun r => isNullish (rowGet r sc.key)) = true)
    ∧ sortRows ⟨"score", SortDir.asc⟩
        [⟨"r1", [("score", JSValue.vNull)]⟩, ⟨"r2", [("score", JSValue.vNum 10)]⟩,
          ⟨"r3", [("score", JSValue.vNum 5)]⟩]
        = [⟨"r3", [("score", JSValue.vNum 5)]⟩, ⟨"r2", [("score", JSValue.vNum 10)]⟩,
          ⟨"r1", [("score", JSValue.vNull)]⟩]
    ∧ sortRows ⟨"score", SortDir.desc⟩
        [⟨"r1", [("score", JSValue.vNull)]⟩, ⟨"r2", [("score", JSValue.vNum 10)]⟩,
          ⟨"r3", [("score", JSValue.vNum 5)]⟩]
        = [⟨"r2", [("score", JSValue.vNum 10)]⟩, ⟨"r3", [("score", JSValue.vNum 5)]⟩,
          ⟨"r1", [("score", JSValue.vNull)]⟩] := by
  refine ⟨?_, by decide, by decide⟩
  intro sc l
  exact jsSort_split (sortLtRow sc) (fun r => isNullish (rowGet r sc.key))
    (sortLtRow_null_left sc) (sortLtRow_null_right sc) l [] [] [] rfl rfl rfl

/-- The page index after `confirmDelete`: clamped to the recomputed
`newTotalPages` exactly when that is positive and exceeded. -/
theorem confirmDelete_currentPage (cfg : ResolvedTableConfig) (s : GridState) :
    (confirmDelete cfg s).1.currentPage =
      if s.currentPage > newTotalPagesAfterDelete cfg s
          ∧ newTotalPagesAfterDelete cfg s > 0 then
        newTotalPagesAfterDelete cfg s
      else s.currentPage := by
  by_cases hb : s.deleteConfirm.itemId = "bulk" <;>
    by_cases hc : s.currentPage > newTotalPagesAfterDelete cfg s
        ∧ newTotalPagesAfterDelete cfg s > 0 <;>
    simp [confirmDelete, hb, hc]

/-- Claim C1 (amended): after a confirmed delete the source recomputes
`newTotalPages` from the post-deletion UNFILTERED row count (for a single
delete, as the previous count minus one) and sets `currentPageIndex` to
`newTotalPages` only when `currentPageIndex` exceeds it AND it is
positive; when `newTotalPages` is zero the index is left unchanged (and
may keep pointing past the end).  The index never drops below 1 and,
whenever `newTotalPages` is positive, never exceeds it. -/
theorem C1_page_clamp_amended (cfg : ResolvedTableConfig) (s : GridState)
    (h1 : 1 ≤ s.currentPage) :
    PageClampAmendedSpec cfg s (confirmDelete cfg s).1 := by
  unfold PageClampAmendedSpec
  rw [confirmDelete_currentPage]
  split_ifs with hcond
  · omega
  · omega

/-- Witness for the amended claim C1 at a concrete delete. -/
theorem C1_page_clamp_amended_witness :
    PageClampAmendedSpec (mkConfig {})
      ⟨[⟨"a", []⟩, ⟨"b", []⟩], "", [], none, 1, [], ⟨true, "a", "a"⟩⟩
      (confirmDelete (mkConfig {})
        ⟨[⟨"a", []⟩, ⟨"b", []⟩], "", [], none, 1, [], ⟨true, "a", "a"⟩⟩).1 :=
  C1_page_clamp_amended _ _ (by decide)

/-- Claim C4 (amended): confirming a bulk delete removes exactly the rows
whose id is selected, invokes `onItemDelete` once per id in the selection
list — including ids present in the selection but matching no row — after
one `onDataChange`, and clears the selection. -/
theorem C4_bulk_delete_amended (cfg : ResolvedTableConfig) (s : GridState)
    (hb : s.deleteConfirm.itemId = "bulk") :
    BulkDeleteAmendedSpec s (confirmDelete cfg s) := by
  unfold BulkDeleteAmendedSpec confirmDelete
  by_cases hc : s.currentPage > newTotalPagesAfterDelete cfg s
      ∧ newTotalPagesAfterDelete cfg s > 0 <;>
    simp [hb, hc, List.mem_filter]

/-- Witness for the amended claim C4 at a concrete bulk delete. -/
theorem C4_bulk_delete_amended_witness :
    BulkDeleteAmendedSpec
      ⟨[⟨"a", []⟩], "", [], none, 1, ["a", "b"], ⟨true, "bulk", ""⟩⟩
      (confirmDelete (mkConfig {})
        ⟨[⟨"a", []⟩], "", [], none, 1, ["a", "b"], ⟨true, "bulk", ""⟩⟩) :=
  C4_bulk_delete_amended _ _ rfl

/-- Claim C9 (amended): a row passes an active date filter iff its field
and the filter value normalize to the same `toDateString` result; when
exactly one side is unparsable the row is excluded, but when BOTH sides
are unparsable they normalize to the same "Invalid Date" marker and the
row is included (the catch branch never fires because `new Date` does not
throw). -/
theorem C9_date_filter_amended (filter : FilterConfig) (itemValue fv : JSValue)
    (ht : filter.type = FilterType.date) :
    DateFilterAmendedSpec filter itemValue fv := by
  obtain ⟨k, lbl, ty, mult⟩ := filter
  dsimp only at ht
  subst ht
  unfold DateFilterAmendedSpec filterPass
  refine ⟨?_, ?_, ?_, ?_⟩
  · simp [beq_iff_eq]
  · intro hi hf
    simp [hi, hf]
  · intro d hi hf
    simp [hi, hf]
  · intro d hi hf
    simp [hi, hf]

/-- Witness for the amended claim C9 at concrete values. -/
theorem C9_date_filter_amended_witness :
    DateFilterAmendedSpec ⟨"d", "", FilterType.date, false⟩
      (JSValue.vStr "2024-05-05") (JSValue.vStr "2024-05-05") :=
  C9_date_filter_amended _ _ _ rfl

/-- The projected key is unchanged by stripping the visibility predicate. -/
theorem key_clearShowWhen (config : FormFieldConfig) :
    (clearShowWhen config).key = config.key := by
  cases config
  rfl

/-- Per-field validation never reads the visibility predicate. -/
theorem fieldError_clearShowWhen (config : FormFieldConfig) (v : JSValue) :
    fieldError (clearShowWhen config) v = fieldError config v := by
  cases config
  rfl

/-- The error accumulator is unchanged by stripping every visibility
predicate: `validateForm` never reads `showWhen`. -/
theorem validateErrorsAux_clearShowWhen (fd : FormRecord) :
    ∀ (cs : List FormFieldConfig) (acc : List (String × String)),
      validateErrorsAux (cs.map clearShowWhen) fd acc = validateErrorsAux cs fd acc := by
  intro cs
  induction cs with
  | nil => intro acc; rfl
  | cons c rest ih =>
      intro acc
      simp only [List.map_cons]
      unfold validateErrorsAux
      rw [key_clearShowWhen, fieldError_clearShowWhen]
      exact ih _

/-- Claim C2 (amended): a field whose `showWhen` predicate rejects the
current record is excluded from rendering, but `validateForm` ignores the
visibility predicate entirely — the error mapping is identical whether or
not any field carries a `showWhen`, so hidden fields are still validated
and can contribute error entries. -/
theorem C2_hidden_fields_amended :
    (∀ (config : FormFieldConfig) (formData : FormRecord) (p : FormRecord → Bool),
        config.showWhen = some p → p formData = false →
        fieldVisible config formData = false)
    ∧ ∀ (fieldConfigs : List FormFieldConfig) (formData : FormRecord),
        validateErrors fieldConfigs formData
          = validateErrors (fieldConfigs.map clearShowWhen) formData := by
  constructor
  · intro config fd p hp hfalse
    simp [fieldVisible, hp, hfalse]
  · intro cs fd
    exact (validateErrorsAux_clearShowWhen fd cs []).symm

/-- Witness for the amended claim C2 at a concrete hidden field. -/
theorem C2_hidden_fields_amended_witness :
    fieldVisible ⟨"x", "X", "text", true, none, some (fun _ => false)⟩ [] = false :=
  C2_hidden_fields_amended.1 _ [] (fun _ => false) rfl rfl

/-- Concatenating the first `k` page slices is a prefix of the filtered
sequence. -/
theorem concatPages_eq_take (cfg : ResolvedTableConfig) (l : List Row)
    (hp : cfg.enablePagination = true) :
    ∀ k, concatPages cfg l k = l.take (k * cfg.itemsPerPage) := by
  intro k
  induction k with
  | zero => simp [concatPages]
  | succ k ih =>
      show concatPages cfg l k ++ currentData cfg l (k + 1) = _
      rw [ih]
      unfold currentData
      rw [if_pos hp]
      have h1 : k + 1 - 1 = k := rfl
      rw [h1, Nat.succ_mul, List.take_add]

/-- A ceiling division bound: `k` pages of size `ipp` cover `n` items. -/
theorem le_ceilPages_mul (n ipp : Nat) (h : 0 < ipp) : n ≤ ceilPages n ipp * ipp := by
  unfold ceilPages
  rcases Nat.eq_zero_or_pos n with rfl | hn
  · simp
  · have hd := Nat.div_add_mod (n + ipp - 1) ipp
    have hm : (n + ipp - 1) % ipp < ipp := Nat.mod_lt _ h
    rw [Nat.mul_comm]
    generalize hq : ipp * ((n + ipp - 1) / ipp) = t at hd ⊢
    generalize hr : (n + ipp - 1) % ipp = r at hd hm
    omega

/-- Claim C6: with pagination enabled and a positive page size,
concatenating the page slices for pages 1 through
`ceil(length / itemsPerPage)` reproduces the filtered sequence exactly —
no row is duplicated or omitted. -/
theorem C6_pagination_coverage (cfg : ResolvedTableConfig) (l : List Row)
    (hp : cfg.enablePagination = true) (hipp : 0 < cfg.itemsPerPage) :
    concatPages cfg l (totalPages cfg l) = l := by
  rw [concatPages_eq_take cfg l hp]
  apply List.take_of_length_le
  unfold totalPages
  exact le_ceilPages_mul _ _ hipp

/-- Witness for claim C6 at a concrete three-row sequence with page
size 2. -/
theorem C6_pagination_coverage_witness :
    concatPages (mkConfig { itemsPerPage := some 2 })
      [⟨"a", []⟩, ⟨"b", []⟩, ⟨"c", []⟩]
      (totalPages (mkConfig { itemsPerPage := some 2 })
        [⟨"a", []⟩, ⟨"b", []⟩, ⟨"c", []⟩])
      = [⟨"a", []⟩, ⟨"b", []⟩, ⟨"c", []⟩] :=
  C6_pagination_coverage _ _ rfl (by decide)

/-- Lookup of a freshly recorded error. -/
theorem lookupErr_cons_self (k e : String) (acc : List (String × String)) :
    lookupErr ((k, e) :: acc) k = some e := by
  simp [lookupErr, List.lookup]

/-- Recording an error under a different key does not affect a lookup. -/
theorem lookupErr_cons_ne {k k2 : String} (h : k2 ≠ k) (e : String)
    (acc : List (String × String)) :
    lookupErr ((k2, e) :: acc) k = lookupErr acc k := by
  have hbeq : (k == k2) = false := beq_eq_false_iff_ne.mpr (Ne.symm h)
  simp [lookupErr, List.lookup, hbeq]

/-- Fields whose key differs from `k` leave the lookup of `k` in the
accumulated error mapping unchanged. -/
theorem lookup_validateErrorsAux_ne (fd : FormRecord) :
    ∀ (cs : List FormFieldConfig) (acc : List (String × String)) (k : String),
      (∀ c ∈ cs, c.key ≠ k) →
      lookupErr (validateErrorsAux cs fd acc) k = lookupErr acc k := by
  intro cs
  induction cs with
  | nil => intro acc k _; rfl
  | cons c rest ih =>
      intro acc k h
      have hck : c.key ≠ k := h c (List.Mem.head _)
      have hrest : ∀ c2 ∈ rest, c2.key ≠ k := fun c2 hc2 => h c2 (List.Mem.tail _ hc2)
      unfold validateErrorsAux
      cases hfe : fieldError c (getProp fd c.key) with
      | none =>
          simp only [hfe]
          exact ih acc k hrest
      | some e =>
          simp only [hfe]
          rw [ih _ k hrest, lookupErr_cons_ne hck]

/-- With pairwise distinct field keys, the error recorded for a member
configuration is exactly its own `fieldError` result (or the prior
accumulator entry when that is `none`). -/
theorem lookup_validateErrorsAux_mem (fd : FormRecord) :
    ∀ (cs : List FormFieldConfig) (acc : List (String × String)) (c : FormFieldConfig),
      (cs.map FormFieldConfig.key).Nodup → c ∈ cs →
      lookupErr (validateErrorsAux cs fd acc) c.key
        = match fieldError c (getProp fd c.key) with
          | some e => some e
          | none => lookupErr acc c.key := by
  intro cs
  induction cs with
  | nil => intro acc c _ hc; cases hc
  | cons c0 rest ih =>
      intro acc c hnd hc
      rw [List.map_cons, List.nodup_cons] at hnd
      rcases List.mem_cons.mp hc with rfl | hcr
      · have hneq : ∀ c2 ∈ rest, c2.key ≠ c.key := by
          intro c2 hc2 hkey
          exact hnd.1 (hkey ▸ List.mem_map_of_mem FormFieldConfig.key hc2)
        unfold validateErrorsAux
        cases hfe : fieldError c (getProp fd c.key) with
        | some e =>
            simp only [hfe]
            rw [lookup_validateErrorsAux_ne fd rest _ c.key hneq, lookupErr_cons_self]
        | none =>
            simp only [hfe]
            exact lookup_validateErrorsAux_ne fd rest acc c.key hneq
      · have hneq0 : c0.key ≠ c.key := by
          intro hkey
          exact hnd.1 (hkey ▸ List.mem_map_of_mem FormFieldConfig.key hcr)
        unfold validateErrorsAux
        cases hfe0 : fieldError c0 (getProp fd c0.key) with
        | none =>
            simp only [hfe0]
            exact ih acc c hnd.2 hcr
        | some e =>
            simp only [hfe0]
            rw [ih _ c hnd.2 hcr]
            cases fieldError c (getProp fd c.key) with
            | some e2 => rfl
            | none => exact lookupErr_cons_ne hneq0 e acc

/-- Claim C7: with pairwise distinct field keys, a required field whose
value is missing or blank after trimming produces exactly the
"<label> is required" message (no later rule message replaces it) and the
save is blocked (`onSave` is not invoked); a field that is empty (missing,
null, or the empty string) and not required records no error at all. -/
theorem C7_required_validation (fieldConfigs : List FormFieldConfig) (fd : FormRecord)
    (c : FormFieldConfig) (hnd : (fieldConfigs.map FormFieldConfig.key).Nodup)
    (hc : c ∈ fieldConfigs) :
    (c.required = true →
      (getProp fd c.key = .vUndefined ∨ getProp fd c.key = .vNull
        ∨ ∃ s, getProp fd c.key = .vStr s ∧ s.trim = "") →
      lookupErr (validateErrors fieldConfigs fd) c.key = some (c.label ++ " is required")
        ∧ handleSave fieldConfigs (some fd) = none)
    ∧ (c.required = false →
      (getProp fd c.key = .vUndefined ∨ getProp fd c.key = .vNull
        ∨ getProp fd c.key = .vStr "") →
      lookupErr (validateErrors fieldConfigs fd) c.key = none) := by
  have hmain := lookup_validateErrorsAux_mem fd fieldConfigs [] c hnd hc
  constructor
  · intro hreq hmiss
    have hfe : fieldError c (getProp fd c.key) = some (c.label ++ " is required") := by
      rcases hmiss with h | h | ⟨s, hs, hblank⟩
      · simp [fieldError, hreq, h, jsFalsy]
      · simp [fieldError, hreq, h, jsFalsy]
      · simp [fieldError, hreq, hs, isBlankString, hblank]
    rw [hfe] at hmain
    have hlook : lookupErr (validateErrors fieldConfigs fd) c.key
        = some (c.label ++ " is required") := hmain
    refine ⟨hlook, ?_⟩
    have hne : validateForm fieldConfigs fd = false := by
      unfold validateForm
      cases herr : validateErrors fieldConfigs fd with
      | nil =>
          rw [herr] at hlook
          simp [lookupErr] at hlook
      | cons a t => simp
    simp [handleSave, hne]
  · intro hreq hempty
    have hfe : fieldError c (getProp fd c.key) = none := by
      rcases hempty with h | h | h <;> simp [fieldError, hreq, h, jsFalsy]
    rw [hfe] at hmain
    exact hmain

/-- Witness for claim C7: the spec scenario — a single required "email"
field absent on save yields exactly the error mapping
{email: "Email is required"} and `onSave` is not invoked. -/
theorem C7_required_validation_witness :
    lookupErr (validateErrors [⟨"email", "Email", "text", true, none, none⟩] []) "email"
        = some "Email is required"
    ∧ handleSave [⟨"email", "Email", "text", true, none, none⟩] (some []) = none := by
  have h := (C7_required_validation [⟨"email", "Email", "text", true, none, none⟩] []
      ⟨"email", "Email", "text", true, none, none⟩
      (by decide) (List.Mem.head _)).1 rfl (Or.inl rfl)
  refine ⟨?_, h.2⟩
  rw [h.1]
  decide
